import Mathlib

/-!
Verification of the UBX protocol driver (ublox7_rs).

Shallow embedding of the pure computational core of src/src/lib.rs and
src/src/main.rs. Bytes are modelled as `Nat` values (with `% 256` wherever
the Rust code wraps on `u8`), byte buffers as `List Nat`, fallible decoding
as `Option`, and the 64-bit floating point scaling of decoded navigation
fields as exact rational arithmetic over `ℚ`.
-/

namespace Ublox7

/-- Embeds `UbxMessage` from src/src/lib.rs: class byte, id byte, payload bytes. -/
structure UbxMessage where
  cls : Nat
  id : Nat
  payload : List Nat
deriving DecidableEq, Repr

/-- Embeds `ubx_checksum` from src/src/lib.rs: the fold step.
`ck_a = ck_a.wrapping_add(*byte); ck_b = ck_b.wrapping_add(ck_a)` with
`u8` wrap-around modelled as `% 256`. -/
def ubx_checksum_step (ck : Nat × Nat) (b : Nat) : Nat × Nat :=
  ((ck.1 + b) % 256, (ck.2 + (ck.1 + b) % 256) % 256)

/-- Embeds `ubx_checksum` from src/src/lib.rs: two running 8-bit
accumulators over the byte range, starting from `(0, 0)`. -/
def ubx_checksum (data : List Nat) : Nat × Nat :=
  data.foldl ubx_checksum_step (0, 0)

/-- Embeds the frame construction of `send_ubx_command` from src/src/lib.rs
(the bytes handed to `port.write_all`): sync bytes `0xB5 0x62`, class, id,
little-endian 16-bit length (`len & 0xFF`, `(len >> 8) & 0xFF`), payload,
then the two checksum bytes computed over everything after the sync bytes. -/
def send_ubx_command (cls id : Nat) (payload : List Nat) : List Nat :=
  let len := payload.length
  let msg := [0xB5, 0x62, cls, id, len % 256, len / 256 % 256] ++ payload
  msg ++ [(ubx_checksum (msg.drop 2)).1, (ubx_checksum (msg.drop 2)).2]

/-- The 16-bit little-endian length field read by `parse_ubx_message` from
bytes 4 and 5 of the buffer (`u16::from_le_bytes([data[4], data[5]])`). -/
def declared_len (data : List Nat) : Nat :=
  data.getD 4 0 + 256 * data.getD 5 0

/-- Embeds `parse_ubx_message` from src/src/lib.rs. Returns `none` when the
buffer is shorter than 8 bytes, when the sync bytes do not match, when the
declared length overruns the buffer, or when the recomputed checksum differs
from the trailing checksum bytes; otherwise the decoded message. Index reads
are rendered with `getD`; the bounds theorems below show every index the
source dereferences is in range under the guards. -/
def parse_ubx_message (data : List Nat) : Option UbxMessage :=
  if data.length < 8 ∨ data.getD 0 0 ≠ 0xB5 ∨ data.getD 1 0 ≠ 0x62 then
    none
  else
    let len := declared_len data
    if data.length < 8 + len then
      none
    else
      let ck_a := data.getD (6 + len) 0
      let ck_b := data.getD (7 + len) 0
      let chk := ubx_checksum ((data.drop 2).take (4 + len))
      if ck_a = chk.1 ∧ ck_b = chk.2 then
        some ⟨data.getD 2 0, data.getD 3 0, (data.drop 6).take len⟩
      else
        none

/-- The frame emitted by `send_ubx_command` written as an explicit cons chain. -/
theorem send_ubx_command_eq (cls id : Nat) (payload : List Nat) :
    send_ubx_command cls id payload =
      0xB5 :: 0x62 :: cls :: id :: payload.length % 256 ::
        payload.length / 256 % 256 ::
        (payload ++
          [(ubx_checksum ([cls, id, payload.length % 256,
              payload.length / 256 % 256] ++ payload)).1,
           (ubx_checksum ([cls, id, payload.length % 256,
              payload.length / 256 % 256] ++ payload)).2]) := by
  simp [send_ubx_command]

/-- The length field of an emitted frame is the payload length reduced
modulo 2^16 (low byte plus 256 times the next byte). -/
theorem declared_len_send (cls id : Nat) (payload : List Nat) :
    declared_len (send_ubx_command cls id payload) =
      payload.length % 256 + 256 * (payload.length / 256 % 256) := by
  rw [send_ubx_command_eq]
  simp [declared_len]

/-- Core round-trip lemma on the explicit frame shape: a frame built from a
payload of length at most 65535 with a correct trailing checksum decodes to
the class, id and payload it was built from. -/
theorem parse_ubx_message_frame (cls id A B : Nat) (payload : List Nat)
    (hlen : payload.length ≤ 65535)
    (hAB : ubx_checksum ([cls, id, payload.length % 256,
        payload.length / 256 % 256] ++ payload) = (A, B)) :
    parse_ubx_message (0xB5 :: 0x62 :: cls :: id :: payload.length % 256 ::
        payload.length / 256 % 256 :: (payload ++ [A, B])) =
      some ⟨cls, id, payload⟩ := by
  have hdl : declared_len (0xB5 :: 0x62 :: cls :: id :: payload.length % 256 ::
      payload.length / 256 % 256 :: (payload ++ [A, B])) = payload.length := by
    simp only [declared_len, List.getD_cons_succ, List.getD_cons_zero]
    omega
  have hslice : ((0xB5 :: 0x62 :: cls :: id :: payload.length % 256 ::
      payload.length / 256 % 256 :: (payload ++ [A, B])).drop 2).take
        (4 + payload.length) =
      [cls, id, payload.length % 256, payload.length / 256 % 256] ++ payload := by
    show (cls :: id :: payload.length % 256 :: payload.length / 256 % 256 ::
        (payload ++ [A, B])).take (4 + payload.length) = _
    have h4 : 4 + payload.length = (((payload.length + 1) + 1) + 1) + 1 := by
      omega
    rw [h4]
    simp only [List.take_succ_cons, List.cons_append, List.nil_append,
      List.cons.injEq, true_and]
    exact List.take_left' rfl
  have hd6 : (0xB5 :: 0x62 :: cls :: id :: payload.length % 256 ::
      payload.length / 256 % 256 :: (payload ++ [A, B])).getD
        (6 + payload.length) 0 = A := by
    rw [List.getD_eq_getElem?_getD, ← List.getElem?_drop]
    show ((payload ++ [A, B])[payload.length]?).getD 0 = A
    rw [List.getElem?_append_right (Nat.le_refl _)]
    simp
  have hd7 : (0xB5 :: 0x62 :: cls :: id :: payload.length % 256 ::
      payload.length / 256 % 256 :: (payload ++ [A, B])).getD
        (7 + payload.length) 0 = B := by
    have h7 : 7 + payload.length = 6 + (1 + payload.length) := by omega
    rw [List.getD_eq_getElem?_getD, h7, ← List.getElem?_drop]
    show ((payload ++ [A, B])[1 + payload.length]?).getD 0 = B
    rw [List.getElem?_append_right (by omega)]
    have h1 : 1 + payload.length - payload.length = 1 := by omega
    rw [h1]
    simp
  have hd6take : ((0xB5 :: 0x62 :: cls :: id :: payload.length % 256 ::
      payload.length / 256 % 256 :: (payload ++ [A, B])).drop 6).take
        payload.length = payload := by
    show (payload ++ [A, B]).take payload.length = payload
    exact List.take_left' rfl
  have hguard1 : ¬((0xB5 :: 0x62 :: cls :: id :: payload.length % 256 ::
      payload.length / 256 % 256 :: (payload ++ [A, B])).length < 8 ∨
      (0xB5 :: 0x62 :: cls :: id :: payload.length % 256 ::
        payload.length / 256 % 256 :: (payload ++ [A, B])).getD 0 0 ≠ 0xB5 ∨
      (0xB5 :: 0x62 :: cls :: id :: payload.length % 256 ::
        payload.length / 256 % 256 :: (payload ++ [A, B])).getD 1 0 ≠ 0x62) := by
    push_neg
    refine ⟨?_, rfl, rfl⟩
    simp only [List.length_cons, List.length_append, List.length_nil]
    omega
  have hguard2 : ¬((0xB5 :: 0x62 :: cls :: id :: payload.length % 256 ::
      payload.length / 256 % 256 :: (payload ++ [A, B])).length <
        8 + payload.length) := by
    simp only [List.length_cons, List.length_append, List.length_nil]
    omega
  simp only [parse_ubx_message, hdl]
  rw [if_neg hguard1, if_neg hguard2, hslice, hAB, hd6, hd7, hd6take]
  simp

/-- Claim C1: round-trip. For every class byte, id byte and payload of at
most 65535 bytes, decoding the frame produced by the encoder succeeds and
returns the class, id and payload unchanged. -/
theorem parse_send_ubx_roundtrip (cls id : Nat) (payload : List Nat)
    (hcls : cls < 256) (hid : id < 256) (hbytes : ∀ b ∈ payload, b < 256)
    (hlen : payload.length ≤ 65535) :
    parse_ubx_message (send_ubx_command cls id payload) =
      some ⟨cls, id, payload⟩ := by
  rw [send_ubx_command_eq]
  exact parse_ubx_message_frame cls id _ _ payload hlen rfl

/-- Witness for claim C1 at class 1, id 2, payload `[3, 4, 5]`. -/
theorem parse_send_ubx_roundtrip_witness :
    (1 : Nat) < 256 ∧ (2 : Nat) < 256 ∧ (∀ b ∈ [3, 4, 5], b < 256) ∧
      ([3, 4, 5] : List Nat).length ≤ 65535 ∧
      parse_ubx_message (send_ubx_command 1 2 [3, 4, 5]) =
        some ⟨1, 2, [3, 4, 5]⟩ :=
  ⟨by decide, by decide, by decide, by decide,
    parse_send_ubx_roundtrip 1 2 [3, 4, 5] (by decide) (by decide)
      (by decide) (by decide)⟩

/-- Claim C2 (code bug): the encoder performs no payload-size validation;
on a 65536-byte payload it silently emits a frame whose declared length
field is 0 (the true length reduced modulo 2^16) instead of failing with a
`PayloadTooLarge` error. -/
theorem send_ubx_command_truncates_overlong_payload :
    (List.replicate 65536 (0 : Nat)).length = 65536 ∧
    declared_len (send_ubx_command 1 2 (List.replicate 65536 0)) = 0 := by
  have h : (List.replicate 65536 (0 : Nat)).length = 65536 :=
    List.length_replicate _ _
  refine ⟨h, ?_⟩
  rw [declared_len_send, h]

/-- Claim C8: decode returns the absence value for every buffer shorter
than 8 bytes, and for every buffer whose first two bytes are the sync
marker but whose declared 16-bit length overruns the remaining buffer;
both failures are the same undistinguished `none`. -/
theorem parse_ubx_message_short_or_overrun (data : List Nat) :
    (data.length < 8 → parse_ubx_message data = none) ∧
    (data.getD 0 0 = 0xB5 → data.getD 1 0 = 0x62 →
      data.length < 8 + declared_len data → parse_ubx_message data = none) := by
  constructor
  · intro h
    simp [parse_ubx_message, h]
  · intro h0 h1 hlen
    by_cases h8 : data.length < 8
    · simp [parse_ubx_message, h8]
    · simp [parse_ubx_message, h8, h0, h1, hlen]

/-- Witness for claim C8: a 3-byte buffer, and an 8-byte buffer with valid
sync bytes whose declared length 5 needs a 13-byte buffer. -/
theorem parse_ubx_message_short_or_overrun_witness :
    ([0, 1, 2] : List Nat).length < 8 ∧ parse_ubx_message [0, 1, 2] = none ∧
    parse_ubx_message [0xB5, 0x62, 1, 2, 5, 0, 0, 0] = none :=
  ⟨by decide, (parse_ubx_message_short_or_overrun [0, 1, 2]).1 (by decide),
    (parse_ubx_message_short_or_overrun [0xB5, 0x62, 1, 2, 5, 0, 0, 0]).2
      (by decide) (by decide) (by decide)⟩

/-- Claim C9: the checksum function equals the reference two-accumulator
recurrence: it starts from `(0, 0)`, each byte updates `a` to
`(a + byte) % 256` and then `b` to `(b + a) % 256`, and on input `[1, 2, 3]`
it yields `a = 6` and `b = 10`. -/
theorem ubx_checksum_recurrence :
    ubx_checksum [] = (0, 0) ∧
    (∀ l b, (ubx_checksum (l ++ [b])).1 = ((ubx_checksum l).1 + b) % 256 ∧
      (ubx_checksum (l ++ [b])).2 =
        ((ubx_checksum l).2 + ((ubx_checksum l).1 + b) % 256) % 256) ∧
    ubx_checksum [1, 2, 3] = (6, 10) := by
  refine ⟨rfl, ?_, by decide⟩
  intro l b
  simp [ubx_checksum, List.foldl_append, ubx_checksum_step]

/-- Closed classification of satellite identifiers into GNSS families. -/
inductive Constellation where
  | gps
  | sbas
  | glonass
  | galileo
  | beidou
  | qzss
  | unknown
deriving DecidableEq, Repr

/-- Modelled from the spec: `svid_to_constellation` is exported by the
library crate and called in src/src/main.rs, but its defining code is not
under src/. Per the spec, section 4.5: range-based classification, GPS 1-32,
GLONASS 65-96, SBAS 120-158 and 183-192, BeiDou 33-64 and 159-163,
QZSS 193-197, Galileo 211-246, anything else Unknown; total and pure. -/
def svid_to_constellation (svid : Nat) : Constellation :=
  if 1 ≤ svid ∧ svid ≤ 32 then Constellation.gps
  else if 65 ≤ svid ∧ svid ≤ 96 then Constellation.glonass
  else if (120 ≤ svid ∧ svid ≤ 158) ∨ (183 ≤ svid ∧ svid ≤ 192) then
    Constellation.sbas
  else if (33 ≤ svid ∧ svid ≤ 64) ∨ (159 ≤ svid ∧ svid ≤ 163) then
    Constellation.beidou
  else if 193 ≤ svid ∧ svid ≤ 197 then Constellation.qzss
  else if 211 ≤ svid ∧ svid ≤ 246 then Constellation.galileo
  else Constellation.unknown

/-- Claim C7: the classifier is a total pure function mapping 1-32 to GPS,
65-96 to GLONASS, 120-158 and 183-192 to SBAS, 33-64 and 159-163 to BeiDou,
193-197 to QZSS, 211-246 to Galileo, every other value to Unknown; in
particular 1 to GPS, 65 to GLONASS and 250 to Unknown. -/
theorem svid_to_constellation_ranges (n : Nat) :
    (1 ≤ n ∧ n ≤ 32 → svid_to_constellation n = Constellation.gps) ∧
    (65 ≤ n ∧ n ≤ 96 → svid_to_constellation n = Constellation.glonass) ∧
    ((120 ≤ n ∧ n ≤ 158) ∨ (183 ≤ n ∧ n ≤ 192) →
      svid_to_constellation n = Constellation.sbas) ∧
    ((33 ≤ n ∧ n ≤ 64) ∨ (159 ≤ n ∧ n ≤ 163) →
      svid_to_constellation n = Constellation.beidou) ∧
    (193 ≤ n ∧ n ≤ 197 → svid_to_constellation n = Constellation.qzss) ∧
    (211 ≤ n ∧ n ≤ 246 → svid_to_constellation n = Constellation.galileo) ∧
    (¬(1 ≤ n ∧ n ≤ 32) ∧ ¬(65 ≤ n ∧ n ≤ 96) ∧
      ¬((120 ≤ n ∧ n ≤ 158) ∨ (183 ≤ n ∧ n ≤ 192)) ∧
      ¬((33 ≤ n ∧ n ≤ 64) ∨ (159 ≤ n ∧ n ≤ 163)) ∧
      ¬(193 ≤ n ∧ n ≤ 197) ∧ ¬(211 ≤ n ∧ n ≤ 246) →
      svid_to_constellation n = Constellation.unknown) ∧
    svid_to_constellation 1 = Constellation.gps ∧
    svid_to_constellation 65 = Constellation.glonass ∧
    svid_to_constellation 250 = Constellation.unknown := by
  refine ⟨?_, ?_, ?_, ?_, ?_, ?_, ?_, by decide, by decide, by decide⟩ <;>
    (intro h
     unfold svid_to_constellation
     split_ifs <;> first | rfl | (exfalso; omega))

/-- Witness for claim C7 at one identifier from each range. -/
theorem svid_to_constellation_ranges_witness :
    svid_to_constellation 20 = Constellation.gps ∧
    svid_to_constellation 70 = Constellation.glonass ∧
    svid_to_constellation 130 = Constellation.sbas ∧
    svid_to_constellation 185 = Constellation.sbas ∧
    svid_to_constellation 40 = Constellation.beidou ∧
    svid_to_constellation 160 = Constellation.beidou ∧
    svid_to_constellation 195 = Constellation.qzss ∧
    svid_to_constellation 220 = Constellation.galileo ∧
    svid_to_constellation 0 = Constellation.unknown :=
  ⟨(svid_to_constellation_ranges 20).1 (by decide),
   (svid_to_constellation_ranges 70).2.1 (by decide),
   (svid_to_constellation_ranges 130).2.2.1 (by decide),
   (svid_to_constellation_ranges 185).2.2.1 (by decide),
   (svid_to_constellation_ranges 40).2.2.2.1 (by decide),
   (svid_to_constellation_ranges 160).2.2.2.1 (by decide),
   (svid_to_constellation_ranges 195).2.2.2.2.1 (by decide),
   (svid_to_constellation_ranges 220).2.2.2.2.2.1 (by decide),
   (svid_to_constellation_ranges 0).2.2.2.2.2.2.1 (by decide)⟩

/-- Little-endian unsigned 32-bit value of four bytes, embedding
`u32::from_le_bytes`. -/
def le_u32 (b0 b1 b2 b3 : Nat) : Nat :=
  b0 + 256 * b1 + 65536 * b2 + 16777216 * b3

/-- Little-endian signed 32-bit value of four bytes (two's complement),
embedding `i32::from_le_bytes`. -/
def le_i32 (b0 b1 b2 b3 : Nat) : Int :=
  if le_u32 b0 b1 b2 b3 < 2147483648 then (le_u32 b0 b1 b2 b3 : Int)
  else (le_u32 b0 b1 b2 b3 : Int) - 4294967296

/-- Embeds `Position` from src/src/lib.rs. The five `f64` fields are
modelled over `ℚ`; the scalings `* 1e-7` and `/ 1000.0` are rendered as
exact division by 10^7 and by 10^3. -/
structure Position where
  lat : ℚ
  lon : ℚ
  height_msl : ℚ
  horizontal_accuracy : ℚ
  vertical_accuracy : ℚ
deriving DecidableEq, Repr

/-- Embeds `parse_nav_posllh` from src/src/lib.rs: requires at least 28
payload bytes, reads longitude at offset 4 and latitude at offset 8 as
little-endian i32 scaled by 1e-7, MSL height at offset 16 as i32 millimeters,
and horizontal and vertical accuracy at offsets 20 and 24 as u32 millimeters,
each converted to meters. Offsets 0-3 and 12-15 are not read. -/
def parse_nav_posllh (payload : List Nat) : Option Position :=
  if payload.length < 28 then none
  else
    some
      { lat := (le_i32 (payload.getD 8 0) (payload.getD 9 0)
          (payload.getD 10 0) (payload.getD 11 0) : ℚ) / 10000000,
        lon := (le_i32 (payload.getD 4 0) (payload.getD 5 0)
          (payload.getD 6 0) (payload.getD 7 0) : ℚ) / 10000000,
        height_msl := (le_i32 (payload.getD 16 0) (payload.getD 17 0)
          (payload.getD 18 0) (payload.getD 19 0) : ℚ) / 1000,
        horizontal_accuracy := (le_u32 (payload.getD 20 0) (payload.getD 21 0)
          (payload.getD 22 0) (payload.getD 23 0) : ℚ) / 1000,
        vertical_accuracy := (le_u32 (payload.getD 24 0) (payload.getD 25 0)
          (payload.getD 26 0) (payload.getD 27 0) : ℚ) / 1000 }

/-- Counterexample to claim C3 as stated: two 28-byte payloads that differ
exactly in the time-of-week bytes (offset 0) and the ellipsoidal-height
bytes (offset 12) decode to the same record, so the returned record
contains neither a time-of-week field nor an ellipsoidal-height field. -/
theorem parse_nav_posllh_ignores_itow_and_ellipsoid :
    parse_nav_posllh
        [0, 0, 0, 0, 0, 0, 0, 0, 0, 0, 0, 0, 0, 0,
         0, 0, 0, 0, 0, 0, 0, 0, 0, 0, 0, 0, 0, 0] =
      parse_nav_posllh
        [99, 0, 0, 0, 0, 0, 0, 0, 0, 0, 0, 0, 77, 0,
         0, 0, 0, 0, 0, 0, 0, 0, 0, 0, 0, 0, 0, 0] ∧
    ([0, 0, 0, 0, 0, 0, 0, 0, 0, 0, 0, 0, 0, 0,
      0, 0, 0, 0, 0, 0, 0, 0, 0, 0, 0, 0, 0, 0] : List Nat) ≠
      [99, 0, 0, 0, 0, 0, 0, 0, 0, 0, 0, 0, 77, 0,
       0, 0, 0, 0, 0, 0, 0, 0, 0, 0, 0, 0, 0, 0] := by
  constructor
  · rfl
  · decide

/-- Claim C3 as amended: for every payload of at least 28 bytes the decoder
succeeds and returns longitude and latitude (little-endian i32 at offsets 4
and 8, scaled by 1e-7 degrees), mean-sea-level height (i32 at offset 16,
millimeters to meters) and horizontal and vertical accuracy (u32 at offsets
20 and 24, millimeters to meters); time-of-week and ellipsoidal height are
not part of the returned record; every shorter payload yields `none`. -/
theorem parse_nav_posllh_spec (payload : List Nat) :
    (payload.length < 28 → parse_nav_posllh payload = none) ∧
    (28 ≤ payload.length → parse_nav_posllh payload =
      some
        { lat := (le_i32 (payload.getD 8 0) (payload.getD 9 0)
            (payload.getD 10 0) (payload.getD 11 0) : ℚ) / 10000000,
          lon := (le_i32 (payload.getD 4 0) (payload.getD 5 0)
            (payload.getD 6 0) (payload.getD 7 0) : ℚ) / 10000000,
          height_msl := (le_i32 (payload.getD 16 0) (payload.getD 17 0)
            (payload.getD 18 0) (payload.getD 19 0) : ℚ) / 1000,
          horizontal_accuracy := (le_u32 (payload.getD 20 0)
            (payload.getD 21 0) (payload.getD 22 0)
            (payload.getD 23 0) : ℚ) / 1000,
          vertical_accuracy := (le_u32 (payload.getD 24 0) (payload.getD 25 0)
            (payload.getD 26 0) (payload.getD 27 0) : ℚ) / 1000 }) := by
  constructor
  · intro h
    simp [parse_nav_posllh, h]
  · intro h
    rw [parse_nav_posllh, if_neg (by omega)]

/-- Witness for claim C3: a 28-byte payload whose longitude field is the
fixed-point integer 1234567 decodes to longitude 1234567 / 10^7 degrees
(exactly 0.1234567). -/
theorem parse_nav_posllh_spec_witness :
    28 ≤ ([0, 0, 0, 0, 0x87, 0xD6, 0x12, 0, 0, 0, 0, 0, 0, 0,
      0, 0, 0, 0, 0, 0, 0, 0, 0, 0, 0, 0, 0, 0] : List Nat).length ∧
    parse_nav_posllh
        [0, 0, 0, 0, 0x87, 0xD6, 0x12, 0, 0, 0, 0, 0, 0, 0,
         0, 0, 0, 0, 0, 0, 0, 0, 0, 0, 0, 0, 0, 0] =
      some
        { lat := 0, lon := (1234567 : ℚ) / 10000000, height_msl := 0,
          horizontal_accuracy := 0, vertical_accuracy := 0 } := by
  refine ⟨by decide, ?_⟩
  rw [(parse_nav_posllh_spec _).2 (by decide)]
  norm_num [le_i32, le_u32]

/-- Signed 8-bit value of one byte (two's complement), embedding `as i8`. -/
def i8_of (b : Nat) : Int :=
  if b < 128 then (b : Int) else (b : Int) - 256

/-- Little-endian signed 16-bit value of two bytes (two's complement),
embedding `i16::from_le_bytes`. -/
def le_i16 (b0 b1 : Nat) : Int :=
  if b0 + 256 * b1 < 32768 then ((b0 + 256 * b1 : Nat) : Int)
  else ((b0 + 256 * b1 : Nat) : Int) - 65536

/-- One satellite row of the legacy NAV-SVINFO layout, with the fields the
loop in `parse_nav_svinfo` (src/src/main.rs) reads from a 12-byte block. -/
structure SatRowSvinfo where
  chn : Nat
  svid : Nat
  flags : Nat
  quality : Nat
  cno : Nat
  elev : Int
  azim : Int
  pr_res : Int
deriving DecidableEq, Repr

/-- The row that `parse_nav_svinfo` reads at block offset `base`. -/
def svinfo_row (payload : List Nat) (base : Nat) : SatRowSvinfo :=
  { chn := payload.getD base 0,
    svid := payload.getD (base + 1) 0,
    flags := payload.getD (base + 2) 0,
    quality := payload.getD (base + 3) 0,
    cno := payload.getD (base + 4) 0,
    elev := i8_of (payload.getD (base + 5) 0),
    azim := le_i16 (payload.getD (base + 6) 0) (payload.getD (base + 7) 0),
    pr_res := le_i32 (payload.getD (base + 8) 0) (payload.getD (base + 9) 0)
      (payload.getD (base + 10) 0) (payload.getD (base + 11) 0) }

/-- Embeds the row loop of `parse_nav_svinfo` (src/src/main.rs): starting at
row index `i` with `n` declared rows remaining, block offset `8 + i * 12`;
when the 12-byte block would overrun the payload the loop breaks and the
rows read so far stand. Each printed row of the source is collected. -/
def svinfo_rows (payload : List Nat) : Nat → Nat → List SatRowSvinfo
  | _, 0 => []
  | i, n + 1 =>
    let base := 8 + i * 12
    if base + 12 > payload.length then []
    else svinfo_row payload base :: svinfo_rows payload (i + 1) n

/-- Embeds `parse_nav_svinfo` (src/src/main.rs): a payload shorter than 8
bytes is rejected up front; otherwise the declared count is byte 4 and the
rows come from the truncating loop. -/
def parse_nav_svinfo (payload : List Nat) : Option (List SatRowSvinfo) :=
  if payload.length < 8 then none
  else some (svinfo_rows payload 0 (payload.getD 4 0))

/-- One satellite row of the current NAV-SAT layout, with the fields the
response loop in `get_sat_info` (src/src/main.rs) reads per 12-byte block. -/
structure SatRowNavsat where
  gnss_id : Nat
  sv_id : Nat
  cno : Nat
  flags : Nat
  azimuth : Int
  elevation : Int
  orbit_source : Nat
deriving DecidableEq, Repr

/-- The row that the `get_sat_info` response loop reads at offset `base`. -/
def navsat_row (payload : List Nat) (base : Nat) : SatRowNavsat :=
  { gnss_id := payload.getD base 0,
    sv_id := payload.getD (base + 1) 0,
    cno := payload.getD (base + 2) 0,
    flags := payload.getD (base + 3) 0,
    azimuth := le_i16 (payload.getD (base + 4) 0) (payload.getD (base + 5) 0),
    elevation := i8_of (payload.getD (base + 6) 0),
    orbit_source := payload.getD (base + 7) 0 }

/-- Embeds the row loop of `get_sat_info` (src/src/main.rs): same 12-byte
stride and same break-on-overrun policy as the legacy layout. -/
def navsat_rows (payload : List Nat) : Nat → Nat → List SatRowNavsat
  | _, 0 => []
  | i, n + 1 =>
    let base := 8 + i * 12
    if base + 12 > payload.length then []
    else navsat_row payload base :: navsat_rows payload (i + 1) n

/-- Embeds the NAV-SAT payload interpretation of `get_sat_info`
(src/src/main.rs): payloads shorter than 8 bytes are rejected before the
loop; otherwise the declared count is byte 5. -/
def get_sat_info_rows (payload : List Nat) : Option (List SatRowNavsat) :=
  if payload.length < 8 then none
  else some (navsat_rows payload 0 (payload.getD 5 0))

/-- The legacy row loop always yields the smaller of the remaining declared
count and the number of complete 12-byte blocks left in the payload. -/
theorem svinfo_rows_length (payload : List Nat) :
    ∀ n i, (svinfo_rows payload i n).length =
      min n ((payload.length - 8) / 12 - i) := by
  intro n
  induction n with
  | zero => intro i; simp [svinfo_rows]
  | succ n ih =>
    intro i
    by_cases h : 8 + i * 12 + 12 > payload.length
    · simp only [svinfo_rows, if_pos h, List.length_nil]
      omega
    · simp only [svinfo_rows, if_neg h, List.length_cons, ih (i + 1)]
      omega

/-- The current-layout row loop yields the same count. -/
theorem navsat_rows_length (payload : List Nat) :
    ∀ n i, (navsat_rows payload i n).length =
      min n ((payload.length - 8) / 12 - i) := by
  intro n
  induction n with
  | zero => intro i; simp [navsat_rows]
  | succ n ih =>
    intro i
    by_cases h : 8 + i * 12 + 12 > payload.length
    · simp only [navsat_rows, if_pos h, List.length_nil]
      omega
    · simp only [navsat_rows, if_neg h, List.length_cons, ih (i + 1)]
      omega

/-- Claim C5: satellite decoding truncates gracefully. In both layouts, for
any payload of at least 8 bytes and any declared count, decoding succeeds
(never an error) and returns exactly as many complete rows as fit: the
smaller of the declared count and the number of whole 12-byte blocks
present after the 8-byte header. -/
theorem sat_decoding_truncates (payload : List Nat)
    (h : 8 ≤ payload.length) :
    parse_nav_svinfo payload =
      some (svinfo_rows payload 0 (payload.getD 4 0)) ∧
    (svinfo_rows payload 0 (payload.getD 4 0)).length =
      min (payload.getD 4 0) ((payload.length - 8) / 12) ∧
    get_sat_info_rows payload =
      some (navsat_rows payload 0 (payload.getD 5 0)) ∧
    (navsat_rows payload 0 (payload.getD 5 0)).length =
      min (payload.getD 5 0) ((payload.length - 8) / 12) := by
  refine ⟨?_, ?_, ?_, ?_⟩
  · rw [parse_nav_svinfo, if_neg (by omega)]
  · rw [svinfo_rows_length payload (payload.getD 4 0) 0, Nat.sub_zero]
  · rw [get_sat_info_rows, if_neg (by omega)]
  · rw [navsat_rows_length payload (payload.getD 5 0) 0, Nat.sub_zero]

/-- Witness for claim C5: a 32-byte payload declaring 3 rows in both
layouts but holding bytes for only 2 complete 12-byte blocks yields exactly
2 rows from each decoder. -/
theorem sat_decoding_truncates_witness :
    8 ≤ ([0, 0, 0, 0, 3, 3, 0, 0, 0, 0, 0, 0, 0, 0, 0, 0, 0, 0, 0, 0, 0, 0,
      0, 0, 0, 0, 0, 0, 0, 0, 0, 0] : List Nat).length ∧
    (svinfo_rows [0, 0, 0, 0, 3, 3, 0, 0, 0, 0, 0, 0, 0, 0, 0, 0, 0, 0, 0,
      0, 0, 0, 0, 0, 0, 0, 0, 0, 0, 0, 0, 0] 0
      (([0, 0, 0, 0, 3, 3, 0, 0, 0, 0, 0, 0, 0, 0, 0, 0, 0, 0, 0, 0, 0, 0,
        0, 0, 0, 0, 0, 0, 0, 0, 0, 0] : List Nat).getD 4 0)).length = 2 ∧
    (navsat_rows [0, 0, 0, 0, 3, 3, 0, 0, 0, 0, 0, 0, 0, 0, 0, 0, 0, 0, 0,
      0, 0, 0, 0, 0, 0, 0, 0, 0, 0, 0, 0, 0] 0
      (([0, 0, 0, 0, 3, 3, 0, 0, 0, 0, 0, 0, 0, 0, 0, 0, 0, 0, 0, 0, 0, 0,
        0, 0, 0, 0, 0, 0, 0, 0, 0, 0] : List Nat).getD 5 0)).length = 2 := by
  refine ⟨by decide, ?_, ?_⟩
  · rw [(sat_decoding_truncates _ (by decide)).2.1]
    decide
  · rw [(sat_decoding_truncates _ (by decide)).2.2.2]
    decide

/-- Embeds `MAX_RETRY` from src/src/main.rs. -/
def MAX_RETRY : Nat := 10

/-- Observable outcome of one attempt of the retry loop in
`get_ublox7_message` (src/src/main.rs): the send failed (logged and the
attempt consumed), or the read-and-decode step produced `r` (the value
`read_ubx_response` returns, `none` covering both read errors and invalid
frames). The serial transport is abstracted as this per-attempt oracle. -/
inductive AttemptOutcome where
  | sendErr
  | recv (r : Option UbxMessage)
deriving DecidableEq, Repr

/-- An attempt outcome that carries a structurally valid frame whose class
and id equal the requested ones. -/
def matches_req (cls id : Nat) : AttemptOutcome → Prop
  | AttemptOutcome.recv (some m) => m.cls = cls ∧ m.id = id
  | AttemptOutcome.recv none => False
  | AttemptOutcome.sendErr => False

instance (cls id : Nat) : (a : AttemptOutcome) → Decidable (matches_req cls id a)
  | AttemptOutcome.recv (some m) =>
    inferInstanceAs (Decidable (m.cls = cls ∧ m.id = id))
  | AttemptOutcome.recv none => inferInstanceAs (Decidable False)
  | AttemptOutcome.sendErr => inferInstanceAs (Decidable False)

/-- Embeds the `for i in 1..=MAX_RETRY` loop of `get_ublox7_message`
(src/src/main.rs): attempt index `i` with `fuel` attempts remaining. A send
error or a missing or non-matching response moves to the next attempt; a
response with the requested class and id returns it together with the
transport; running out of attempts returns the transport as the error. -/
def get_ublox7_loop {P : Type} (port : P) (oracle : Nat → AttemptOutcome)
    (cls id : Nat) : Nat → Nat → Except P (P × UbxMessage)
  | _, 0 => Except.error port
  | i, n + 1 =>
    match oracle i with
    | AttemptOutcome.sendErr => get_ublox7_loop port oracle cls id (i + 1) n
    | AttemptOutcome.recv none => get_ublox7_loop port oracle cls id (i + 1) n
    | AttemptOutcome.recv (some m) =>
      if m.cls = cls ∧ m.id = id then Except.ok (port, m)
      else get_ublox7_loop port oracle cls id (i + 1) n

/-- Embeds `get_ublox7_message` (src/src/main.rs): run the retry loop from
attempt 1 with `MAX_RETRY` attempts. -/
def get_ublox7_message {P : Type} (port : P) (oracle : Nat → AttemptOutcome)
    (cls id : Nat) : Except P (P × UbxMessage) :=
  get_ublox7_loop port oracle cls id 1 MAX_RETRY

/-- When no attempt in the loop window matches, the loop ends in the error
outcome still carrying the transport. -/
theorem get_ublox7_loop_exhaust {P : Type} (port : P)
    (oracle : Nat → AttemptOutcome) (cls id : Nat) :
    ∀ fuel i, (∀ j, i ≤ j → j < i + fuel → ¬ matches_req cls id (oracle j)) →
      get_ublox7_loop port oracle cls id i fuel = Except.error port := by
  intro fuel
  induction fuel with
  | zero => intro i _; rfl
  | succ n ih =>
    intro i h
    have hi := h i (Nat.le_refl i) (by omega)
    have hnext : ∀ j, i + 1 ≤ j → j < i + 1 + n →
        ¬ matches_req cls id (oracle j) :=
      fun j a b => h j (by omega) (by omega)
    cases hoi : oracle i with
    | sendErr =>
      simp only [get_ublox7_loop, hoi]
      exact ih (i + 1) hnext
    | recv r =>
      cases r with
      | none =>
        simp only [get_ublox7_loop, hoi]
        exact ih (i + 1) hnext
      | some m =>
        rw [hoi] at hi
        have hi' : ¬(m.cls = cls ∧ m.id = id) := hi
        simp only [get_ublox7_loop, hoi]
        rw [if_neg hi']
        exact ih (i + 1) hnext

/-- When attempt `k` inside the loop window is the first matching one, the
loop ends in success at attempt `k` with the matching message and the
transport. -/
theorem get_ublox7_loop_finds {P : Type} (port : P)
    (oracle : Nat → AttemptOutcome) (cls id : Nat) :
    ∀ fuel i k m, i ≤ k → k < i + fuel →
      oracle k = AttemptOutcome.recv (some m) → m.cls = cls → m.id = id →
      (∀ j, i ≤ j → j < k → ¬ matches_req cls id (oracle j)) →
      get_ublox7_loop port oracle cls id i fuel = Except.ok (port, m) := by
  intro fuel
  induction fuel with
  | zero =>
    intro i k m h1 h2 _ _ _ _
    omega
  | succ n ih =>
    intro i k m hik hk ho hcls hid hno
    rcases Nat.eq_or_lt_of_le hik with heq | hlt
    · subst heq
      simp only [get_ublox7_loop, ho]
      rw [if_pos ⟨hcls, hid⟩]
    · have hi := hno i (Nat.le_refl i) hlt
      have hnext : ∀ j, i + 1 ≤ j → j < k → ¬ matches_req cls id (oracle j) :=
        fun j a b => hno j (by omega) b
      cases hoi : oracle i with
      | sendErr =>
        simp only [get_ublox7_loop, hoi]
        exact ih (i + 1) k m (by omega) (by omega) ho hcls hid hnext
      | recv r =>
        cases r with
        | none =>
          simp only [get_ublox7_loop, hoi]
          exact ih (i + 1) k m (by omega) (by omega) ho hcls hid hnext
        | some m' =>
          rw [hoi] at hi
          have hi' : ¬(m'.cls = cls ∧ m'.id = id) := hi
          simp only [get_ublox7_loop, hoi]
          rw [if_neg hi']
          exact ih (i + 1) k m (by omega) (by omega) ho hcls hid hnext

/-- Claim C4: the request-response engine. If the transport yields a frame
matching the requested class and id on some attempt `k` with
`1 ≤ k ≤ MAX_RETRY` (and none before), the engine returns that message
together with the transport; if no attempt among the `MAX_RETRY` yields a
match, it returns the retries-exhausted failure, again together with the
transport. -/
theorem get_ublox7_message_spec {P : Type} (port : P)
    (oracle : Nat → AttemptOutcome) (cls id : Nat) :
    (∀ k m, 1 ≤ k → k ≤ MAX_RETRY →
      oracle k = AttemptOutcome.recv (some m) → m.cls = cls → m.id = id →
      (∀ j, j < k → 1 ≤ j → ¬ matches_req cls id (oracle j)) →
      get_ublox7_message port oracle cls id = Except.ok (port, m)) ∧
    ((∀ j, j ≤ MAX_RETRY → 1 ≤ j → ¬ matches_req cls id (oracle j)) →
      get_ublox7_message port oracle cls id = Except.error port) := by
  constructor
  · intro k m h1 h2 ho hcls hid hno
    exact get_ublox7_loop_finds port oracle cls id MAX_RETRY 1 k m h1
      (by simp only [MAX_RETRY] at h2 ⊢; omega) ho hcls hid
      (fun j a b => hno j b a)
  · intro hno
    exact get_ublox7_loop_exhaust port oracle cls id MAX_RETRY 1
      (fun j a b => hno j (by simp only [MAX_RETRY] at b ⊢; omega) a)

/-- A transport (attempt oracle) that answers every attempt before the
tenth with a valid but unsolicited frame and the tenth with the requested
one. -/
def oracle_match_tenth : Nat → AttemptOutcome :=
  fun j =>
    if j = 10 then AttemptOutcome.recv (some ⟨1, 2, []⟩)
    else AttemptOutcome.recv (some ⟨9, 9, []⟩)

/-- A transport (attempt oracle) that never produces a valid frame. -/
def oracle_never : Nat → AttemptOutcome :=
  fun _ => AttemptOutcome.recv none

/-- Witness for claim C4: against `oracle_match_tenth` the engine succeeds
on attempt 10 with the matching message and the transport; against
`oracle_never` it fails after the attempt bound, returning the transport. -/
theorem get_ublox7_message_spec_witness :
    get_ublox7_message () oracle_match_tenth 1 2 =
      Except.ok ((), ⟨1, 2, []⟩) ∧
    get_ublox7_message () oracle_never 1 2 = Except.error () :=
  ⟨(get_ublox7_message_spec () oracle_match_tenth 1 2).1 10 ⟨1, 2, []⟩
      (by decide) (by decide) (by decide) rfl rfl (by decide),
   (get_ublox7_message_spec () oracle_never 1 2).2 (by decide)⟩

/-- The first checksum accumulator is the byte sum modulo 256, for any
in-range starting accumulator. -/
theorem ubx_checksum_go_fst :
    ∀ (l : List Nat) (a b : Nat), a < 256 →
      (List.foldl ubx_checksum_step (a, b) l).1 = (a + l.sum) % 256 := by
  intro l
  induction l with
  | nil =>
    intro a b ha
    simp [Nat.mod_eq_of_lt ha]
  | cons x t ih =>
    intro a b ha
    simp only [List.foldl_cons, List.sum_cons, ubx_checksum_step]
    rw [ih _ _ (Nat.mod_lt _ (by omega)), Nat.mod_add_mod, Nat.add_assoc]

/-- The first checksum byte over a range is the sum of the range mod 256. -/
theorem ubx_checksum_fst (l : List Nat) : (ubx_checksum l).1 = l.sum % 256 := by
  have h := ubx_checksum_go_fst l 0 0 (by omega)
  simpa [ubx_checksum] using h

/-- Overwriting position `k` of a list trades the old entry for the new one
inside the sum. -/
theorem sum_set_getD (l : List Nat) :
    ∀ (k c : Nat), k < l.length → (l.set k c).sum + l.getD k 0 = l.sum + c := by
  induction l with
  | nil =>
    intro k c h
    simp at h
  | cons x t ih =>
    intro k c h
    cases k with
    | zero =>
      simp only [List.set_cons_zero, List.sum_cons, List.getD_cons_zero]
      omega
    | succ k =>
      simp only [List.set_cons_succ, List.sum_cons, List.getD_cons_succ]
      have := ih k c (by simpa using h)
      omega

/-- Overwriting one position leaves every other position unchanged. -/
theorem getD_set_ne (l : List Nat) (k i c : Nat) (h : k ≠ i) :
    (l.set k c).getD i 0 = l.getD i 0 := by
  simp [List.getD_eq_getElem?_getD, List.getElem?_set_ne h]

/-- Claim C6: single-byte payload corruption is always detected. If a buffer
of bytes decodes successfully, then overwriting any one payload byte with
any different byte value makes decoding return `none`: the recomputed
running checksum over the changed range no longer equals the unchanged
trailing checksum bytes. -/
theorem parse_ubx_message_detects_corruption (data : List Nat)
    (m : UbxMessage) (j c : Nat)
    (hbytes : ∀ b ∈ data, b < 256)
    (hok : parse_ubx_message data = some m)
    (hj : j < m.payload.length)
    (hc : c < 256)
    (hne : c ≠ data.getD (6 + j) 0) :
    parse_ubx_message (data.set (6 + j) c) = none := by
  simp only [parse_ubx_message] at hok
  split at hok
  · exact absurd hok (by simp)
  · rename_i h1
    split at hok
    · exact absurd hok (by simp)
    · rename_i h2
      split at hok
      · rename_i h3
        push_neg at h1
        obtain ⟨h1a, h1b, h1c⟩ := h1
        rw [Option.some_inj] at hok
        have hmp : m.payload = (data.drop 6).take (declared_len data) := by
          rw [← hok]
        have hjL : j < declared_len data := by
          rw [hmp, List.length_take, List.length_drop] at hj
          omega
        have hLdata : 8 + declared_len data ≤ data.length := by omega
        -- the changed buffer
        have hlen' : (data.set (6 + j) c).length = data.length :=
          List.length_set data (6 + j) c
        have hdl' : declared_len (data.set (6 + j) c) = declared_len data := by
          simp only [declared_len, getD_set_ne data (6 + j) 4 c (by omega),
            getD_set_ne data (6 + j) 5 c (by omega)]
        -- the checksum range of the original and changed buffers
        have hslice' : ((data.set (6 + j) c).drop 2).take
              (4 + declared_len data) =
            ((data.drop 2).take (4 + declared_len data)).set (4 + j) c := by
          rw [List.drop_set, if_neg (by omega), List.set_take]
          have h42 : 6 + j - 2 = 4 + j := by omega
          rw [h42]
        have hslicelen : ((data.drop 2).take (4 + declared_len data)).length =
            4 + declared_len data := by
          rw [List.length_take, List.length_drop]
          omega
        have hjslice : 4 + j < ((data.drop 2).take
            (4 + declared_len data)).length := by
          omega
        have hold : ((data.drop 2).take (4 + declared_len data)).getD
            (4 + j) 0 = data.getD (6 + j) 0 := by
          rw [List.getD_eq_getElem?_getD, List.getD_eq_getElem?_getD,
            List.getElem?_take_of_lt (by omega : 4 + j < 4 + declared_len data),
            List.getElem?_drop]
          have h24 : 2 + (4 + j) = 6 + j := by omega
          rw [h24]
        have holdmem : data.getD (6 + j) 0 < 256 := by
          have hidx : 6 + j < data.length := by omega
          rw [List.getD_eq_getElem?_getD, List.getElem?_eq_getElem hidx]
          exact hbytes _ (List.getElem_mem hidx)
        -- the first recomputed checksum byte changes
        have hcksum : (ubx_checksum (((data.drop 2).take
              (4 + declared_len data)).set (4 + j) c)).1 ≠
            (ubx_checksum ((data.drop 2).take (4 + declared_len data))).1 := by
          rw [ubx_checksum_fst, ubx_checksum_fst]
          intro hmod
          have hsum := sum_set_getD ((data.drop 2).take
            (4 + declared_len data)) (4 + j) c hjslice
          rw [hold] at hsum
          have hm1 : (((data.drop 2).take (4 + declared_len data)).set
                (4 + j) c).sum + data.getD (6 + j) 0 ≡
              ((data.drop 2).take (4 + declared_len data)).sum +
                data.getD (6 + j) 0 [MOD 256] :=
            Nat.ModEq.add_right _ hmod
          rw [hsum] at hm1
          have hm2 : c ≡ data.getD (6 + j) 0 [MOD 256] :=
            (Nat.ModEq.add_left_cancel' _ (Nat.ModEq.symm hm1)).symm
          have : c % 256 = data.getD (6 + j) 0 % 256 := hm2
          rw [Nat.mod_eq_of_lt hc, Nat.mod_eq_of_lt holdmem] at this
          exact hne this
        -- the trailing checksum bytes do not change
        have hck6 : (data.set (6 + j) c).getD (6 + declared_len data) 0 =
            data.getD (6 + declared_len data) 0 :=
          getD_set_ne data (6 + j) (6 + declared_len data) c (by omega)
        -- decode of the corrupted buffer
        simp only [parse_ubx_message, hdl', hlen']
        rw [if_neg, if_neg (by omega), if_neg]
        · intro hcontra
          obtain ⟨hA, _⟩ := hcontra
          rw [hslice', hck6, h3.1] at hA
          exact hcksum hA.symm
        · push_neg
          refine ⟨by omega, ?_, ?_⟩
          · rw [getD_set_ne data (6 + j) 0 c (by omega)]
            exact h1b
          · rw [getD_set_ne data (6 + j) 1 c (by omega)]
            exact h1c
      · exact absurd hok (by simp)

/-- Witness for claim C6: a valid 10-byte frame with payload `[3, 4]`;
changing the first payload byte from 3 to 9 makes decoding fail. -/
theorem parse_ubx_message_detects_corruption_witness :
    parse_ubx_message [181, 98, 1, 2, 2, 0, 3, 4, 12, 34] =
      some ⟨1, 2, [3, 4]⟩ ∧
    parse_ubx_message (([181, 98, 1, 2, 2, 0, 3, 4, 12, 34] :
      List Nat).set 6 9) = none :=
  ⟨by decide,
   parse_ubx_message_detects_corruption [181, 98, 1, 2, 2, 0, 3, 4, 12, 34]
     ⟨1, 2, [3, 4]⟩ 0 9 (by decide) (by decide) (by decide) (by decide)
     (by decide)⟩

/-- The buffer indices `parse_ubx_message` dereferences when both guards
pass: bytes 0-5 (sync, class, id, length field), the two checksum bytes at
`6 + len` and `7 + len`, and the checksum range `2 .. 6 + len` (rendered as
`2 + k` for `k < 4 + len`). -/
def ubx_frame_indices (len : Nat) : List Nat :=
  [0, 1, 2, 3, 4, 5, 6 + len, 7 + len] ++
    (List.range (4 + len)).map (fun k => 2 + k)

/-- The payload indices `parse_nav_posllh` dereferences once the length
guard passes: bytes 4-11 (longitude, latitude) and 16-27 (MSL height,
horizontal and vertical accuracy). -/
def posllh_indices : List Nat :=
  (List.range 8).map (fun k => 4 + k) ++ (List.range 12).map (fun k => 16 + k)

/-- Claim C10: frame decoding is total and in-bounds on arbitrary input.
Decode always returns either a message or the absence value, and under the
guards the source checks first (buffer at least 8 bytes, declared length
fits) every index it dereferences is within the buffer; likewise the
position interpreter under its 28-byte guard. -/
theorem parse_ubx_message_total_inbounds (data payload : List Nat) :
    (parse_ubx_message data = none ∨
      ∃ m, parse_ubx_message data = some m) ∧
    (parse_nav_posllh payload = none ∨
      ∃ p, parse_nav_posllh payload = some p) ∧
    (8 ≤ data.length → 8 + declared_len data ≤ data.length →
      ∀ i ∈ ubx_frame_indices (declared_len data), i < data.length) ∧
    (28 ≤ payload.length → ∀ i ∈ posllh_indices, i < payload.length) := by
  refine ⟨?_, ?_, ?_, ?_⟩
  · cases h : parse_ubx_message data with
    | none => exact Or.inl rfl
    | some m => exact Or.inr ⟨m, rfl⟩
  · cases h : parse_nav_posllh payload with
    | none => exact Or.inl rfl
    | some p => exact Or.inr ⟨p, rfl⟩
  · intro h8 hfit i hi
    simp only [ubx_frame_indices, List.mem_append, List.mem_cons,
      List.not_mem_nil, or_false, List.mem_map, List.mem_range] at hi
    rcases hi with h | ⟨k, hk, rfl⟩ <;> omega
  · intro h28 i hi
    simp only [posllh_indices, List.mem_append, List.mem_map,
      List.mem_range] at hi
    rcases hi with ⟨k, hk, rfl⟩ | ⟨k, hk, rfl⟩ <;> omega

/-- Witness for claim C10 on a concrete 8-byte frame buffer and a concrete
28-byte position payload. -/
theorem parse_ubx_message_total_inbounds_witness :
    (∀ i ∈ ubx_frame_indices (declared_len [181, 98, 1, 2, 0, 0, 1, 3]),
      i < ([181, 98, 1, 2, 0, 0, 1, 3] : List Nat).length) ∧
    (∀ i ∈ posllh_indices,
      i < ([0, 0, 0, 0, 0, 0, 0, 0, 0, 0, 0, 0, 0, 0, 0, 0, 0, 0, 0, 0, 0,
        0, 0, 0, 0, 0, 0, 0] : List Nat).length) :=
  ⟨(parse_ubx_message_total_inbounds [181, 98, 1, 2, 0, 0, 1, 3]
      [0, 0, 0, 0, 0, 0, 0, 0, 0, 0, 0, 0, 0, 0, 0, 0, 0, 0, 0, 0, 0,
        0, 0, 0, 0, 0, 0, 0]).2.2.1 (by decide) (by decide),
   (parse_ubx_message_total_inbounds [181, 98, 1, 2, 0, 0, 1, 3]
      [0, 0, 0, 0, 0, 0, 0, 0, 0, 0, 0, 0, 0, 0, 0, 0, 0, 0, 0, 0, 0,
        0, 0, 0, 0, 0, 0, 0]).2.2.2 (by decide)⟩

end Ublox7
